import Mathlib

/-!
Verification of the partylog-client log store and sync protocol.

The TypeScript source (src/store.ts, src/actions.ts, src/cross-tab-client.ts)
is shallowly embedded below.  JavaScript strings are modelled as lists of
characters, JavaScript numbers arising here (timestamps, counters) as natural
numbers, thrown exceptions as Except values, and null results as Option.
Reads of object properties that do not exist on the record written by the
code are modelled as explicit undefined values (none), with a comment at
each such read pointing at the record shape in the source.
-/

namespace Partylog

/-- JavaScript runtime exceptions that the embedded code can raise. -/
inductive JsErr where
  | typeError (msg : String)
  | jsError (msg : String)
  | constraintError (msg : String)
deriving DecidableEq

/-- The character of a single decimal digit (digits 9 and above all map to the
digit 9; the functions below only apply it to values strictly below 10). -/
def digitChar : Nat → Char
  | 0 => '0'
  | 1 => '1'
  | 2 => '2'
  | 3 => '3'
  | 4 => '4'
  | 5 => '5'
  | 6 => '6'
  | 7 => '7'
  | 8 => '8'
  | _ => '9'

/-- Decimal digits of a number, least significant first, with explicit fuel so
that the definition is structural and kernel-reducible.  Used with fuel equal
to the number itself, which always suffices. -/
def digitsRevAux : Nat → Nat → List Char
  | _, 0 => []
  | 0, _ + 1 => []
  | f + 1, n + 1 => digitChar ((n + 1) % 10) :: digitsRevAux f ((n + 1) / 10)

def digitsRev (n : Nat) : List Char := digitsRevAux n n

/-- Model of the JavaScript number-to-string conversion used by
serializeSeq (the expression starting from an empty string plus a number):
nonnegative integers print as their decimal digits. -/
def natDec (n : Nat) : List Char :=
  if n = 0 then [digitChar 0] else (digitsRev n).reverse

/-- Decimal digit test on characters, by code point (48 to 57). -/
def isDigitCh (c : Char) : Bool := 48 ≤ c.toNat && c.toNat ≤ 57

/-- Numeric value of a list of decimal digit characters, most significant
first. -/
def decVal : List Char → Nat
  | [] => 0
  | c :: cs => (c.toNat - 48) * 10 ^ cs.length + decVal cs

/-- Model of JavaScript parseInt on the strings this codebase produces: the
longest prefix of decimal digits is parsed; if there is none the result is
NaN, modelled as none.  (Sign and whitespace handling are irrelevant here:
every parsed string is produced by serializeSeq.) -/
def parseIntJS (cs : List Char) : Option Nat :=
  let ds := cs.takeWhile isDigitCh
  if ds.isEmpty then none else some (decVal ds)

/-- Model of the JavaScript string split on the colon character. -/
def splitColon : List Char → List (List Char)
  | [] => [[]]
  | c :: cs =>
    if c = ':' then [] :: splitColon cs
    else
      match splitColon cs with
      | [] => [[c]]
      | h :: t => (c :: h) :: t

/-- Model of the JavaScript string comparison used by IndexedDB key ordering
and by the less-than operator on strings: lexicographic by code unit. -/
def lexLt : List Char → List Char → Bool
  | [], [] => false
  | [], _ :: _ => true
  | _ :: _, [] => false
  | a :: as, b :: bs =>
    if a.toNat < b.toNat then true
    else if b.toNat < a.toNat then false
    else lexLt as bs

/-- The seq 3-tuple of actions.ts (DeserializedSeq):
timestamp, localSeq, deviceName. -/
structure Seq where
  timestamp : Nat
  localSeq : Nat
  device : String
deriving DecidableEq

/-- serializeSeq of store.ts: the timestamp, the localSeq and the device name
joined by colons. -/
def serializeSeq (s : Seq) : List Char :=
  natDec s.timestamp ++ (':' :: (natDec s.localSeq ++ (':' :: s.device.data)))

/-- deserializeSeq of store.ts: a -1 input (modelled as none) is returned
unchanged; otherwise the string is split on colons and the first two parts
are parsed with parseInt.  Components that come out as NaN or undefined are
modelled as none. -/
def deserializeSeq (seq : Option (List Char)) :
    Option (Option Nat × Option Nat × Option (List Char)) :=
  match seq with
  | none => none
  | some cs =>
    let parts := splitColon cs
    some (parseIntJS (parts.getD 0 []), parseIntJS (parts.getD 1 []), parts[2]?)

/-- The metadata as seen by isFirstOlder of store.ts: the function reads only
the time field of its arguments; the rest field stands for all the other
fields of a metadata record, so that two distinct records can carry equal
times. -/
structure CmpMeta where
  time : Int
  rest : String
deriving DecidableEq

/-- isFirstOlder of store.ts: compares only the creation times. -/
def isFirstOlder (firstMeta secondMeta : CmpMeta) : Bool :=
  decide (firstMeta.time < secondMeta.time)

theorem digitsRevAux_irrel : ∀ n f g, n ≤ f → n ≤ g →
    digitsRevAux f n = digitsRevAux g n := by
  intro n
  induction n using Nat.strong_induction_on with
  | _ n ih =>
    intro f g hf hg
    cases n with
    | zero => cases f <;> cases g <;> rfl
    | succ m =>
      cases f with
      | zero => omega
      | succ f2 =>
        cases g with
        | zero => omega
        | succ g2 =>
          have hd : (m + 1) / 10 < m + 1 := Nat.div_lt_self (by omega) (by omega)
          simp only [digitsRevAux]
          rw [ih ((m + 1) / 10) hd f2 g2 (by omega) (by omega)]

theorem digitsRev_pos {n : Nat} (h : 0 < n) :
    digitsRev n = digitChar (n % 10) :: digitsRev (n / 10) := by
  cases n with
  | zero => omega
  | succ m =>
    have hd : (m + 1) / 10 < m + 1 := Nat.div_lt_self (by omega) (by omega)
    show digitsRevAux (m + 1) (m + 1) = _
    simp only [digitsRevAux]
    rw [digitsRevAux_irrel ((m + 1) / 10) m ((m + 1) / 10) (by omega) (le_refl _)]
    rfl

theorem digitChar_toNat {d : Nat} (h : d < 10) : (digitChar d).toNat = 48 + d := by
  interval_cases d <;> rfl

theorem isDigitCh_digitChar (d : Nat) : isDigitCh (digitChar d) = true := by
  rcases d with _ | _ | _ | _ | _ | _ | _ | _ | _ | d <;> rfl

theorem natDec_lt10 {n : Nat} (h : n < 10) : natDec n = [digitChar n] := by
  unfold natDec
  by_cases h0 : n = 0
  · subst h0; rfl
  · rw [if_neg h0, digitsRev_pos (by omega)]
    have h10 : n / 10 = 0 := Nat.div_eq_of_lt h
    have hm : n % 10 = n := Nat.mod_eq_of_lt h
    rw [h10, hm]
    rfl

theorem natDec_ge10 {n : Nat} (h : 10 ≤ n) :
    natDec n = natDec (n / 10) ++ [digitChar (n % 10)] := by
  have h2 : 0 < n / 10 := Nat.div_pos h (by omega)
  unfold natDec
  rw [if_neg (by omega), if_neg (by omega), digitsRev_pos (by omega : 0 < n)]
  simp

theorem decVal_append_digit (xs : List Char) (c : Char) :
    decVal (xs ++ [c]) = 10 * decVal xs + (c.toNat - 48) := by
  induction xs with
  | nil => simp [decVal]
  | cons x xs ih =>
    simp only [List.cons_append, List.append_eq, decVal, ih, List.length_append,
      List.length_cons, List.length_nil]
    ring

theorem decVal_natDec (n : Nat) : decVal (natDec n) = n := by
  induction n using Nat.strong_induction_on with
  | _ n ih =>
    by_cases h : n < 10
    · rw [natDec_lt10 h]
      simp [decVal, digitChar_toNat h]
    · have h10 : 10 ≤ n := by omega
      rw [natDec_ge10 h10, decVal_append_digit,
        ih (n / 10) (Nat.div_lt_self (by omega) (by omega)),
        digitChar_toNat (Nat.mod_lt _ (by omega))]
      omega

theorem natDec_digits (n : Nat) : ∀ c ∈ natDec n, isDigitCh c = true := by
  induction n using Nat.strong_induction_on with
  | _ n ih =>
    by_cases h : n < 10
    · rw [natDec_lt10 h]
      intro c hc
      simp only [List.mem_singleton] at hc
      subst hc
      exact isDigitCh_digitChar n
    · rw [natDec_ge10 (by omega)]
      intro c hc
      rcases List.mem_append.mp hc with h1 | h2
      · exact ih (n / 10) (Nat.div_lt_self (by omega) (by omega)) c h1
      · simp only [List.mem_singleton] at h2
        subst h2
        exact isDigitCh_digitChar _

theorem natDec_ne_nil (n : Nat) : natDec n ≠ [] := by
  by_cases h : n < 10
  · rw [natDec_lt10 h]; simp
  · rw [natDec_ge10 (by omega)]; simp

theorem takeWhile_all {p : Char → Bool} :
    ∀ l : List Char, (∀ c ∈ l, p c = true) → l.takeWhile p = l := by
  intro l h
  induction l with
  | nil => rfl
  | cons c cs ih =>
    rw [List.takeWhile_cons, if_pos (h c (by simp))]
    rw [ih (fun x hx => h x (by simp [hx]))]

theorem parseIntJS_natDec (n : Nat) : parseIntJS (natDec n) = some n := by
  have h1 : (natDec n).takeWhile isDigitCh = natDec n := takeWhile_all _ (natDec_digits n)
  have h2 : (natDec n).isEmpty = false := by
    cases hng : natDec n with
    | nil => exact absurd hng (natDec_ne_nil n)
    | cons a l => rfl
  simp [parseIntJS, h1, h2, decVal_natDec]

theorem digit_ne_colon {c : Char} (h : isDigitCh c = true) : c ≠ ':' := by
  intro he
  subst he
  exact absurd h (by decide)

theorem splitColon_no_colon :
    ∀ l : List Char, (∀ c ∈ l, c ≠ ':') → splitColon l = [l] := by
  intro l h
  induction l with
  | nil => rfl
  | cons c cs ih =>
    have hc : c ≠ ':' := h c (by simp)
    simp only [splitColon, if_neg hc]
    rw [ih (fun x hx => h x (by simp [hx]))]

theorem splitColon_append (a r : List Char) (ha : ∀ c ∈ a, c ≠ ':') :
    splitColon (a ++ ':' :: r) = a :: splitColon r := by
  induction a with
  | nil => simp [splitColon]
  | cons c cs ih =>
    have hc : c ≠ ':' := ha c (by simp)
    simp only [List.cons_append, List.append_eq, splitColon, if_neg hc]
    rw [ih (fun x hx => ha x (by simp [hx]))]

theorem natDec_no_colon (n : Nat) : ∀ c ∈ natDec n, c ≠ ':' :=
  fun c hc => digit_ne_colon (natDec_digits n c hc)

theorem splitColon_serializeSeq (s : Seq) (hd : ∀ c ∈ s.device.data, c ≠ ':') :
    splitColon (serializeSeq s) = [natDec s.timestamp, natDec s.localSeq, s.device.data] := by
  unfold serializeSeq
  rw [splitColon_append _ _ (natDec_no_colon s.timestamp)]
  rw [splitColon_append _ _ (natDec_no_colon s.localSeq)]
  rw [splitColon_no_colon _ hd]

theorem decVal_lt (l : List Char) (h : ∀ c ∈ l, isDigitCh c = true) :
    decVal l < 10 ^ l.length := by
  induction l with
  | nil => simp [decVal]
  | cons c cs ih =>
    have hc : isDigitCh c = true := h c (by simp)
    have hc9 : c.toNat - 48 ≤ 9 := by
      simp only [isDigitCh, Bool.and_eq_true, decide_eq_true_eq] at hc
      omega
    have ht : decVal cs < 10 ^ cs.length := ih (fun x hx => h x (by simp [hx]))
    simp only [decVal, List.length_cons]
    calc (c.toNat - 48) * 10 ^ cs.length + decVal cs
        < (c.toNat - 48) * 10 ^ cs.length + 10 ^ cs.length := by omega
      _ ≤ 9 * 10 ^ cs.length + 10 ^ cs.length := by
          have := Nat.mul_le_mul_right (10 ^ cs.length) hc9
          omega
      _ = 10 * 10 ^ cs.length := by ring
      _ = 10 ^ (cs.length + 1) := by ring

theorem lexLt_of_decVal_lt : ∀ p q : List Char, p.length = q.length →
    (∀ c ∈ p, isDigitCh c = true) → (∀ c ∈ q, isDigitCh c = true) →
    decVal p < decVal q → lexLt p q = true := by
  intro p
  induction p with
  | nil =>
    intro q hl _ _ hv
    cases q with
    | nil => simp [decVal] at hv
    | cons b bs => simp at hl
  | cons a as ih =>
    intro q hl hp hq hv
    cases q with
    | nil => simp at hl
    | cons b bs =>
      simp only [List.length_cons] at hl
      have hl2 : as.length = bs.length := by omega
      have ha : isDigitCh a = true := hp a (by simp)
      have hb : isDigitCh b = true := hq b (by simp)
      have ha2 : 48 ≤ a.toNat ∧ a.toNat ≤ 57 := by
        simp only [isDigitCh, Bool.and_eq_true, decide_eq_true_eq] at ha
        omega
      have hb2 : 48 ≤ b.toNat ∧ b.toNat ≤ 57 := by
        simp only [isDigitCh, Bool.and_eq_true, decide_eq_true_eq] at hb
        omega
      by_cases hab : a.toNat < b.toNat
      · simp [lexLt, hab]
      · by_cases hba : b.toNat < a.toNat
        · exfalso
          have hAs : decVal as < 10 ^ as.length :=
            decVal_lt as (fun x hx => hp x (by simp [hx]))
          have hBs : decVal bs < 10 ^ bs.length :=
            decVal_lt bs (fun x hx => hq x (by simp [hx]))
          simp only [decVal] at hv
          rw [hl2] at hv hAs
          have hstep : (b.toNat - 48 + 1) * 10 ^ bs.length ≤ (a.toNat - 48) * 10 ^ bs.length :=
            Nat.mul_le_mul_right _ (by omega)
          have hexp : (b.toNat - 48 + 1) * 10 ^ bs.length
              = (b.toNat - 48) * 10 ^ bs.length + 10 ^ bs.length := by ring
          omega
        · have hEq : a.toNat = b.toNat := by omega
          have hrec : lexLt (a :: as) (b :: bs) = lexLt as bs := by
            simp [lexLt, hab, hba]
          rw [hrec]
          apply ih bs hl2 (fun x hx => hp x (by simp [hx])) (fun x hx => hq x (by simp [hx]))
          simp only [decVal] at hv
          rw [hl2, hEq] at hv
          omega

theorem lexLt_append : ∀ p q r s : List Char, p.length = q.length →
    lexLt p q = true → lexLt (p ++ r) (q ++ s) = true := by
  intro p
  induction p with
  | nil =>
    intro q r s hl h
    cases q with
    | nil => simp [lexLt] at h
    | cons b bs => simp at hl
  | cons a as ih =>
    intro q r s hl h
    cases q with
    | nil => simp at hl
    | cons b bs =>
      simp only [List.length_cons] at hl
      simp only [List.cons_append]
      by_cases hab : a.toNat < b.toNat
      · simp [lexLt, hab]
      · by_cases hba : b.toNat < a.toNat
        · simp [lexLt, hab, hba] at h
        · have h2 : lexLt as bs = true := by
            simpa [lexLt, hab, hba] using h
          have := ih bs r s (by omega) h2
          simpa [lexLt, hab, hba] using this

/-- Claim C5 (counterexample): the lexicographic order of the serialized flat
representation does not agree with the order of isFirstOlder on same-device
seqs: the seq with timestamp 9 is older than the seq with timestamp 10, yet
its serialization is lexicographically larger. -/
theorem c5_counterexample :
    isFirstOlder { time := 9, rest := "" } { time := 10, rest := "" } = true ∧
    lexLt (serializeSeq { timestamp := 9, localSeq := 0, device := "d" })
      (serializeSeq { timestamp := 10, localSeq := 0, device := "d" }) = false := by
  constructor
  · rfl
  · rfl

/-- Claim C5 (amended): deserializeSeq inverts serializeSeq for every seq
whose device name contains no colon (timestamps and localSeq being the
nonnegative integers produced by the store); and the lexicographic order of
the serialized representation agrees with the isFirstOlder order on
same-device seqs whose timestamps have decimal representations of equal
length (for timestamps of different digit counts, such as 9 versus 10, the
agreement fails as shown by the counterexample). -/
theorem c5_amended :
    (∀ s : Seq, (∀ c ∈ s.device.data, c ≠ ':') →
      deserializeSeq (some (serializeSeq s)) =
        some (some s.timestamp, some s.localSeq, some s.device.data)) ∧
    (∀ x y : Seq, x.device = y.device →
      (natDec x.timestamp).length = (natDec y.timestamp).length →
      isFirstOlder { time := x.timestamp, rest := "" } { time := y.timestamp, rest := "" } = true →
      lexLt (serializeSeq x) (serializeSeq y) = true) := by
  constructor
  · intro s hd
    have hs := splitColon_serializeSeq s hd
    simp [deserializeSeq, hs, parseIntJS_natDec]
  · intro x y hdev hlen holder
    have hts : x.timestamp < y.timestamp := by
      simpa [isFirstOlder] using holder
    unfold serializeSeq
    apply lexLt_append _ _ _ _ hlen
    apply lexLt_of_decVal_lt _ _ hlen (natDec_digits _) (natDec_digits _)
    rw [decVal_natDec, decVal_natDec]
    exact hts

/-- Claim C5 (witness): the amended round trip and order agreement evaluated
at concrete seqs. -/
theorem c5_witness :
    deserializeSeq (some (serializeSeq { timestamp := 3, localSeq := 4, device := "dev" })) =
      some (some 3, some 4, some "dev".data) ∧
    lexLt (serializeSeq { timestamp := 12, localSeq := 9, device := "dev" })
      (serializeSeq { timestamp := 34, localSeq := 2, device := "dev" }) = true :=
  ⟨c5_amended.1 { timestamp := 3, localSeq := 4, device := "dev" } (by decide),
   c5_amended.2 { timestamp := 12, localSeq := 9, device := "dev" }
     { timestamp := 34, localSeq := 2, device := "dev" } rfl (by decide) (by decide)⟩

/-- Claim C4 (counterexample): two distinct metadata records with equal times
compare false in both directions, so isFirstOlder of a and b equals
isFirstOlder of b and a on a distinct pair, refuting antisymmetry. -/
theorem c4_counterexample :
    ({ time := 1, rest := "x" } : CmpMeta) ≠ { time := 1, rest := "y" } ∧
    isFirstOlder { time := 1, rest := "x" } { time := 1, rest := "y" } =
      isFirstOlder { time := 1, rest := "y" } { time := 1, rest := "x" } := by
  decide

/-- Claim C4 (amended): isFirstOlder is irreflexive and transitive, and for
metadata with distinct time values exactly one direction holds; distinct
metadata with equal times compare false in both directions (as in the
counterexample), so the relation is a strict weak order whose ties are the
equal-time pairs, not a tie-broken strict total order. -/
theorem c4_amended :
    (∀ a : CmpMeta, isFirstOlder a a = false) ∧
    (∀ a b c : CmpMeta, isFirstOlder a b = true → isFirstOlder b c = true →
      isFirstOlder a c = true) ∧
    (∀ a b : CmpMeta, a.time ≠ b.time → isFirstOlder a b ≠ isFirstOlder b a) := by
  refine ⟨?_, ?_, ?_⟩
  · intro a
    simp [isFirstOlder]
  · intro a b c hab hbc
    simp only [isFirstOlder, decide_eq_true_eq] at hab hbc ⊢
    omega
  · intro a b hne
    simp only [isFirstOlder, ne_eq, decide_eq_decide]
    omega

/-- Claim C4 (witness): transitivity and asymmetry of isFirstOlder applied at
concrete metadata values. -/
theorem c4_witness :
    isFirstOlder ({ time := 1, rest := "" } : CmpMeta) { time := 3, rest := "" } = true ∧
    isFirstOlder ({ time := 1, rest := "" } : CmpMeta) { time := 2, rest := "" } ≠
      isFirstOlder { time := 2, rest := "" } { time := 1, rest := "" } :=
  ⟨c4_amended.2.1 { time := 1, rest := "" } { time := 2, rest := "" }
      { time := 3, rest := "" } (by decide) (by decide),
   c4_amended.2.2 { time := 1, rest := "" } { time := 2, rest := "" } (by decide)⟩

/-- The Metadata record of actions.ts: id, timestamp, proof, seq, prev,
username, author, scope, plus the optional signature of SignedMetadata. -/
structure Meta1 where
  id : String
  timestamp : Nat
  proof : String
  seq : Seq
  prev : Option String
  username : String
  author : String
  scope : String
  signature : Option String
deriving DecidableEq

/-- The EncryptedMessage record of actions.ts: metadata plus a string
content.  This is exactly the shape of the records that IndexedStore.add
writes to the log object store. -/
structure EncMsg where
  metadata : Meta1
  content : String
deriving DecidableEq

/-- Access of the top-level seq property on a stored log record: the records
written by add are EncryptedMessage objects with exactly the properties
metadata and content (store.ts, the entry built just before the write), so
cursor.value.seq is the JavaScript undefined, modelled as none. -/
def EncMsg.seqProp (_ : EncMsg) : Option Seq := none

/-- Access of the top-level id property on a stored log record: undefined for
the same reason as seqProp. -/
def EncMsg.idProp (_ : EncMsg) : Option String := none

/-- openCursor with direction prev on the log object store: some record when
the store is nonempty, namely the record with the largest primary key.  The
primary key is metadata.id (the keyPath of the object store), compared as
strings. -/
def cursorPrev : List EncMsg → Option EncMsg
  | [] => none
  | e :: es =>
    match cursorPrev es with
    | none => some e
    | some m => if lexLt m.metadata.id.data e.metadata.id.data then some e else some m

/-- The record type returned by getLastAdded on a nonempty store: both fields
are reads of properties that do not exist on the stored record. -/
structure LastAdded where
  seq : Option Seq
  id : Option String
deriving DecidableEq

/-- getLastAdded of store.ts: -1 (modelled none) on an empty store, otherwise
an object whose seq and id are read off the top level of the last record,
where no such properties exist. -/
def getLastAdded (log : List EncMsg) : Option LastAdded :=
  (cursorPrev log).map fun v => { seq := v.seqProp, id := v.idProp }

/-- The metadata fields assembled by add before signature and id are
attached. -/
structure PreMeta where
  prev : Option String
  seq : Seq
  proof : String
  scope : String
  username : String
  timestamp : Nat
  author : String
deriving DecidableEq

/-- The external collaborators of the store, per the crypto and identity
boundaries of the spec: the blake3 hash with its two output encodings
(base64pad for proof, base64urlpad for id), the canonical JSON serializer
json-canon, the optional signing function, and the per-store identity
strings.  Content values are modelled as the opaque serializable strings
they canonicalize to. -/
structure Ctx where
  hashProof : String → String
  hashId : String → String
  stringifyContent : String → String
  stringifyPre : PreMeta → String
  stringifySigned : PreMeta → String → String
  sign : Option (String → String)
  deviceName : String
  username : String
  author : String

/-- The metadata assembled by add for a given localSeq and timestamp: prev
from the optional previous message, the seq triple, the proof hash of the
canonicalized content, then either sign-then-hash (signature attached before
the id is computed over the signed record) or hash alone. -/
def mkNewMetadata (c : Ctx) (content scope : String) (prev : Option EncMsg)
    (localSeq timestamp : Nat) : Meta1 :=
  let pre : PreMeta :=
    { prev := prev.map fun p => p.metadata.id
      seq := { timestamp := timestamp, localSeq := localSeq, device := c.deviceName }
      proof := c.hashProof (c.stringifyContent content)
      scope := scope
      username := c.username
      timestamp := timestamp
      author := c.author }
  match c.sign with
  | some signFn =>
    let sig := signFn (c.stringifyPre pre)
    { id := c.hashId (c.stringifySigned pre sig)
      timestamp := pre.timestamp
      proof := pre.proof
      seq := pre.seq
      prev := pre.prev
      username := pre.username
      author := pre.author
      scope := pre.scope
      signature := some sig }
  | none =>
    { id := c.hashId (c.stringifyPre pre)
      timestamp := pre.timestamp
      proof := pre.proof
      seq := pre.seq
      prev := pre.prev
      username := pre.username
      author := pre.author
      scope := pre.scope
      signature := none }

instance {ε α : Type} [DecidableEq ε] [DecidableEq α] : DecidableEq (Except ε α) := fun x y =>
  match x, y with
  | Except.ok a, Except.ok b =>
    if h : a = b then isTrue (by rw [h]) else isFalse (fun he => h (by cases he; rfl))
  | Except.error a, Except.error b =>
    if h : a = b then isTrue (by rw [h]) else isFalse (fun he => h (by cases he; rfl))
  | Except.ok _, Except.error _ => isFalse (fun he => by cases he)
  | Except.error _, Except.ok _ => isFalse (fun he => by cases he)

/-- The result of one call to add: the returned value (an exception, null, or
the new metadata), the in-memory adding markers and monotonic-timestamp
clock afterwards, and the record handed to the object store when the write
was reached. -/
structure Add1Out where
  result : Except JsErr (Option Meta1)
  adding : List Nat
  clock : Nat
  written : Option EncMsg
deriving DecidableEq

/-- IndexedStore.add of store.ts.  The store operations are asynchronous, so
the underlying IndexedDB log (which is shared with other tabs and sessions)
is sampled at three await points: s1 at the getLastAdded read, s2 at the
duplicate-id lookup, s3 at the write.  A purely sequential call passes the
same list for all three.  adding is the in-memory marker map of the
instance and clock the state of the monotonic-timestamp module; both are
only touched synchronously between awaits.  Steps, in source order: read
lastAdded; derive localSeq (reading element 1 of the undefined seq property
throws on a nonempty store); take the timestamp; build metadata and the
entry with the hardcoded content string testing; return null if a marker
for localSeq is set; set the marker; return null if the id is already
present, leaving the marker set; write (an existing primary key makes
IndexedDB reject, leaving the marker set); clear the marker and return the
metadata.  The duplicate lookup by id is modelled as the primary-key lookup:
the object store's keyPath is metadata.id, and the storage engine is
abstract per the spec's storage boundary, which provides an id index. -/
def add1 (c : Ctx) (content scope : String) (prev : Option EncMsg)
    (adding : List Nat) (clock : Nat) (s1 s2 s3 : List EncMsg) : Add1Out :=
  let withSeq : Nat → Add1Out := fun localSeq =>
    let timestamp := clock
    let meta := mkNewMetadata c content scope prev localSeq timestamp
    let entry : EncMsg := { metadata := meta, content := "testing" }
    if localSeq ∈ adding then
      { result := Except.ok none, adding := adding, clock := clock + 1, written := none }
    else
      let adding2 := localSeq :: adding
      if (s2.find? fun e => e.metadata.id == meta.id).isSome then
        { result := Except.ok none, adding := adding2, clock := clock + 1, written := none }
      else if (s3.find? fun e => e.metadata.id == meta.id).isSome then
        { result := Except.error (JsErr.constraintError "key already exists")
          adding := adding2, clock := clock + 1, written := none }
      else
        { result := Except.ok (some meta), adding := adding2.erase localSeq
          clock := clock + 1, written := some entry }
  match getLastAdded s1 with
  | none => withSeq 0
  | some la =>
    match la.seq with
    | none =>
      { result := Except.error (JsErr.typeError "cannot read element 1 of undefined")
        adding := adding, clock := clock, written := none }
    | some sq => withSeq (sq.localSeq + 1)

/-- The value stored in the lastSynced record: the string seq or the -1
placeholder. -/
inductive SyncVal where
  | minusOne
  | str (v : String)
deriving DecidableEq

/-- The record stored under the lastSynced key of the extra object store. -/
structure SyncedRec where
  received : SyncVal
  sent : SyncVal
deriving DecidableEq

/-- The full persistent and in-memory state of one IndexedStore: the log
records, the extra object store (the lastSynced record when present), the
in-memory adding markers, and the monotonic-timestamp module state. -/
structure Store1 where
  log : List EncMsg
  extra : Option SyncedRec
  adding : List Nat
  clock : Nat
deriving DecidableEq

/-- IndexedStore.add run sequentially, with no interference between its
awaits: every read and the write see the one evolving store. -/
def addStore (c : Ctx) (content scope : String) (prev : Option EncMsg) (st : Store1) :
    Except JsErr (Option Meta1) × Store1 :=
  ((add1 c content scope prev st.adding st.clock st.log st.log st.log).result,
    { log := st.log ++ (add1 c content scope prev st.adding st.clock st.log st.log st.log).written.toList
      extra := st.extra
      adding := (add1 c content scope prev st.adding st.clock st.log st.log st.log).adding
      clock := (add1 c content scope prev st.adding st.clock st.log st.log st.log).clock })

/-- The JavaScript value lattice needed by byId: a result can be null,
undefined, or present. -/
inductive JsOpt (α : Type) where
  | null
  | undef
  | val (a : α)
deriving DecidableEq

/-- IndexedStore.byId of store.ts: look the record up by id; when found,
return its action and meta properties, which do not exist on the stored
EncryptedMessage record (its properties are metadata and content), so both
components are undefined; when not found, return the pair of nulls. -/
def byId (log : List EncMsg) (id : String) : JsOpt String × JsOpt Meta1 :=
  match log.find? fun e => e.metadata.id == id with
  | some _ => (JsOpt.undef, JsOpt.undef)
  | none => (JsOpt.null, JsOpt.null)

/-- A Partial Metadata diff as accepted by changeMeta: each field is present
or absent. -/
structure MetaDiff where
  id : Option String := none
  timestamp : Option Nat := none
  proof : Option String := none
  seq : Option Seq := none
  prev : Option String := none
  username : Option String := none
  author : Option String := none
  scope : Option String := none
  signature : Option String := none
deriving DecidableEq

/-- The key-by-key copy loop of changeMeta: every property present on the
diff overwrites the stored metadata, with no restriction on which fields may
change. -/
def applyDiff (m : Meta1) (d : MetaDiff) : Meta1 :=
  { id := d.id.getD m.id
    timestamp := d.timestamp.getD m.timestamp
    proof := d.proof.getD m.proof
    seq := d.seq.getD m.seq
    prev := (d.prev.map some).getD m.prev
    username := d.username.getD m.username
    author := d.author.getD m.author
    scope := d.scope.getD m.scope
    signature := (d.signature.map some).getD m.signature }

/-- IndexedDB put on the log object store: replaces the record whose primary
key (metadata.id) equals the key of the record being put, or inserts it;
when a diff changed the id, the record lands under the new key and the old
record stays. -/
def putRecord (r : EncMsg) (log : List EncMsg) : List EncMsg :=
  if (log.find? fun e => e.metadata.id == r.metadata.id).isSome then
    log.map fun e => if e.metadata.id == r.metadata.id then r else e
  else log ++ [r]

/-- IndexedStore.changeMeta of store.ts: false when the id is unknown;
otherwise copy every key of the diff onto the metadata and put the record
back. -/
def changeMeta (log : List EncMsg) (id : String) (diff : MetaDiff) :
    Bool × List EncMsg :=
  match log.find? fun e => e.metadata.id == id with
  | none => (false, log)
  | some e => (true, putRecord { metadata := applyDiff e.metadata diff, content := e.content } log)

/-- The Partial values argument of setLastSynced: sent and received are each
present or absent. -/
structure SyncVals where
  received : Option String := none
  sent : Option String := none
deriving DecidableEq

/-- IndexedStore.setLastSynced of store.ts: read the lastSynced record,
default both fields to -1 when absent, overwrite whichever fields were
passed, and put the record back.  There is no comparison with the previous
watermark. -/
def setLastSynced (values : SyncVals) (extra : Option SyncedRec) : Option SyncedRec :=
  let data := extra.getD { received := SyncVal.minusOne, sent := SyncVal.minusOne }
  let data :=
    match values.sent with
    | some s => { data with sent := SyncVal.str s }
    | none => data
  let data :=
    match values.received with
    | some r => { data with received := SyncVal.str r }
    | none => data
  some data

/-- A concrete instantiation of the external collaborators, used to evaluate
the store on concrete inputs: tagged string concatenations stand in for the
canonical serializer and for the hash encodings. -/
def defaultCtx : Ctx :=
  { hashProof := fun s => "P:" ++ s
    hashId := fun s => "H:" ++ s
    stringifyContent := fun s => s
    stringifyPre := fun p =>
      (p.prev.getD "null") ++ "|" ++ String.mk (serializeSeq p.seq) ++ "|" ++ p.proof ++ "|" ++
        p.scope ++ "|" ++ p.username ++ "|" ++ (natDec p.timestamp).asString ++ "|" ++ p.author
    stringifySigned := fun p s =>
      (p.prev.getD "null") ++ "|" ++ String.mk (serializeSeq p.seq) ++ "|" ++ p.proof ++ "|" ++
        p.scope ++ "|" ++ p.username ++ "|" ++ (natDec p.timestamp).asString ++ "|" ++
        p.author ++ "|" ++ s
    sign := none
    deviceName := "dev1"
    username := "alice"
    author := "did:key:zAlice" }

/-- A fresh store: empty log, no lastSynced record, no markers, clock at
100. -/
def st0 : Store1 := { log := [], extra := none, adding := [], clock := 100 }

/-- Claim C1 (code bug evidence): on a fresh store the first add returns
metadata with localSeq 0, but the second add throws a TypeError instead of
returning localSeq 1: getLastAdded reads the top-level seq property of the
stored record, which is undefined because records are written as metadata
plus content, and add then reads element 1 of that undefined value. -/
theorem c1_bug :
    (addStore defaultCtx "content-one" "post" none st0).1 =
      Except.ok (some (mkNewMetadata defaultCtx "content-one" "post" none 0 100)) ∧
    (mkNewMetadata defaultCtx "content-one" "post" none 0 100).seq.localSeq = 0 ∧
    (addStore defaultCtx "content-two" "post" none
        (addStore defaultCtx "content-one" "post" none st0).2).1 =
      Except.error (JsErr.typeError "cannot read element 1 of undefined") := by
  refine ⟨rfl, rfl, ?_⟩
  rfl

/-- Claim C2 (code bug evidence): after a successful add of the content
my-content, byId on the returned id yields the undefined pair, not the
content and metadata, because byId reads the action and meta properties of a
record whose properties are metadata and content; moreover the record was
stored with the hardcoded content string testing, not with the content that
was passed in. -/
theorem c2_bug :
    byId (addStore defaultCtx "my-content" "post" none st0).2.log
        (mkNewMetadata defaultCtx "my-content" "post" none 0 100).id =
      (JsOpt.undef, JsOpt.undef) ∧
    ((addStore defaultCtx "my-content" "post" none st0).2.log.find? fun e =>
        e.metadata.id == (mkNewMetadata defaultCtx "my-content" "post" none 0 100).id).map
      (fun e => e.content) = some "testing" ∧
    "testing" ≠ "my-content" := by
  refine ⟨rfl, rfl, by decide⟩

/-- Claim C6 (counterexample): the stored lastSynced watermark regresses
silently: after recording the sent watermark with timestamp 5, a call with
the strictly older watermark of timestamp 1 simply overwrites it; nothing is
rejected or clamped. -/
theorem c6_counterexample :
    isFirstOlder { time := 1, rest := "" } { time := 5, rest := "" } = true ∧
    setLastSynced { sent := some "1:0:d" }
        (setLastSynced { sent := some "5:0:d" } none) =
      some { received := SyncVal.minusOne, sent := SyncVal.str "1:0:d" } := by
  decide

/-- Claim C6 (amended): setLastSynced is idempotent, calling it twice with
the same watermark leaves the stored state equal to the single-call result;
but it is not monotonic: it unconditionally overwrites the stored value, so
a backward move is silently applied (see the counterexample). -/
theorem c6_amended :
    (∀ v e, setLastSynced v (setLastSynced v e) = setLastSynced v e) ∧
    (∀ s e, (setLastSynced { sent := some s } e).map (fun d => d.sent) =
      some (SyncVal.str s)) ∧
    (∀ r e, (setLastSynced { received := some r } e).map (fun d => d.received) =
      some (SyncVal.str r)) := by
  refine ⟨?_, ?_, ?_⟩
  · intro v e
    rcases v with ⟨vr, vs⟩
    cases vr <;> cases vs <;> rcases e with _ | ⟨er, es⟩ <;> rfl
  · intro s e
    rcases e with _ | ⟨er, es⟩ <;> rfl
  · intro r e
    rcases e with _ | ⟨er, es⟩ <;> rfl

/-- A concrete metadata record for the changeMeta scenarios. -/
def demoMeta : Meta1 :=
  { id := "id0"
    timestamp := 7
    proof := "p0"
    seq := { timestamp := 7, localSeq := 0, device := "d" }
    prev := none
    username := "u"
    author := "did:key:z1"
    scope := "post"
    signature := none }

/-- Claim C7 (counterexample): changeMeta on a known id with a diff touching
the identity-affecting proof field returns true and the stored record now
carries the new proof: the copy loop protects no field. -/
theorem c7_counterexample :
    (changeMeta [{ metadata := demoMeta, content := "c" }] "id0" { proof := some "evil" }).1 =
      true ∧
    ((changeMeta [{ metadata := demoMeta, content := "c" }] "id0"
          { proof := some "evil" }).2.find? fun e => e.metadata.id == "id0").map
      (fun e => e.metadata.proof) = some "evil" := by
  decide

/-- Claim C7 (amended): changeMeta returns false on an unknown id and leaves
the store exactly unchanged; on a known id it returns true and a scope-only
diff updates exactly the scope field of that record; but no field is
protected: a diff may also overwrite proof, seq, prev, signature, or id (see
the counterexample). -/
theorem c7_amended :
    (∀ log id diff, (log.find? fun e => e.metadata.id == id) = none →
      changeMeta log id diff = (false, log)) ∧
    (∀ log id en sc, (log.find? fun e => e.metadata.id == id) = some en →
      (changeMeta log id { scope := some sc }).1 = true ∧
      (changeMeta log id { scope := some sc }).2 =
        putRecord { metadata := { en.metadata with scope := sc }, content := en.content }
          log) := by
  constructor
  · intro log id diff h
    unfold changeMeta
    rw [h]
  · intro log id en sc h
    unfold changeMeta
    rw [h]
    exact ⟨rfl, rfl⟩

/-- Claim C7 (witness): the amended statement applied at a concrete store:
an unknown id is rejected with the store untouched, and a scope change on a
known id is applied. -/
theorem c7_witness :
    changeMeta [{ metadata := demoMeta, content := "c" }] "nope" { scope := some "new" } =
      (false, [{ metadata := demoMeta, content := "c" }]) ∧
    (changeMeta [{ metadata := demoMeta, content := "c" }] "id0" { scope := some "new" }).2 =
      putRecord { metadata := { demoMeta with scope := "new" }, content := "c" }
        [{ metadata := demoMeta, content := "c" }] :=
  ⟨c7_amended.1 [{ metadata := demoMeta, content := "c" }] "nope"
      { scope := some "new" } (by decide),
   (c7_amended.2 [{ metadata := demoMeta, content := "c" }] "id0"
      { metadata := demoMeta, content := "c" } "new" (by decide)).2⟩

theorem cursorPrev_cons_isSome (e : EncMsg) (es : List EncMsg) :
    (cursorPrev (e :: es)).isSome = true := by
  unfold cursorPrev
  cases cursorPrev es with
  | none => rfl
  | some m => by_cases h : lexLt m.metadata.id.data e.metadata.id.data <;> simp [h]

theorem getLastAdded_nil : getLastAdded [] = none := rfl

theorem getLastAdded_cons (e : EncMsg) (es : List EncMsg) :
    getLastAdded (e :: es) = some { seq := none, id := none } := by
  unfold getLastAdded
  cases h : cursorPrev (e :: es) with
  | none =>
    have hs := cursorPrev_cons_isSome e es
    rw [h] at hs
    simp at hs
  | some v =>
    simp [EncMsg.seqProp, EncMsg.idProp]

theorem add1_null_written (c : Ctx) (content scope : String) (prev : Option EncMsg)
    (adding : List Nat) (clock : Nat) (s1 s2 s3 : List EncMsg)
    (h : (add1 c content scope prev adding clock s1 s2 s3).result = Except.ok none) :
    (add1 c content scope prev adding clock s1 s2 s3).written = none := by
  cases s1 with
  | cons e es => simp [add1, getLastAdded_cons] at h
  | nil =>
    by_cases hm : 0 ∈ adding
    · simp [add1, getLastAdded_nil, hm]
    · by_cases hf : (s2.find? fun e => e.metadata.id ==
          (mkNewMetadata c content scope prev 0 clock).id).isSome = true
      · simp [add1, getLastAdded_nil, hm, hf]
      · by_cases hf3 : (s3.find? fun e => e.metadata.id ==
            (mkNewMetadata c content scope prev 0 clock).id).isSome = true
        · simp [add1, getLastAdded_nil, hm, hf, hf3] at h
        · simp [add1, getLastAdded_nil, hm, hf, hf3] at h

/-- Claim C8 (amended): the already-exists result (the null return, not a
thrown exception) occurs in exactly the two claimed situations, and a failed
add leaves the persisted log and the watermarks unchanged; but the race
guarantee only holds for schedules in which the losing call runs its marker
check while the winner is still in flight.  Part one: on the store states
this code can read without throwing (getLastAdded returned -1, so localSeq
is 0), add returns null exactly when a marker for localSeq 0 is set or when
the computed id is already present at the duplicate lookup.  Part two: a
null-returning sequential add changes neither the log nor the lastSynced
record.  Part three: when two adds both read an empty store and the second
reaches its marker check inside the window between the winner setting and
clearing the marker, exactly one succeeds and the other returns null with
nothing written.  The counterexample shows the window matters: a schedule
in which the second check runs after the winner finished lets both calls
succeed with the same localSeq. -/
theorem c8_amended :
    (∀ c content scope prev adding clock s1 s2 s3,
      ((add1 c content scope prev adding clock s1 s2 s3).result = Except.ok none ↔
        (s1 = [] ∧ (0 ∈ adding ∨
          (s2.find? fun e => e.metadata.id ==
            (mkNewMetadata c content scope prev 0 clock).id).isSome = true)))) ∧
    (∀ c content scope prev st,
      (addStore c content scope prev st).1 = Except.ok none →
      (addStore c content scope prev st).2.log = st.log ∧
      (addStore c content scope prev st).2.extra = st.extra) ∧
    (∀ c content1 scope1 content2 scope2 clock s2l s3l,
      (add1 c content1 scope1 none [] clock [] [] []).result =
        Except.ok (some (mkNewMetadata c content1 scope1 none 0 clock)) ∧
      (add1 c content2 scope2 none [0] (clock + 1) [] s2l s3l).result = Except.ok none ∧
      (add1 c content2 scope2 none [0] (clock + 1) [] s2l s3l).written = none) := by
  refine ⟨?_, ?_, ?_⟩
  · intro c content scope prev adding clock s1 s2 s3
    cases s1 with
    | cons e es =>
      constructor
      · intro h
        simp [add1, getLastAdded_cons] at h
      · rintro ⟨h1, _⟩
        exact absurd h1 (by simp)
    | nil =>
      by_cases hm : 0 ∈ adding
      · simp [add1, getLastAdded_nil, hm]
      · by_cases hf : (s2.find? fun e => e.metadata.id ==
            (mkNewMetadata c content scope prev 0 clock).id).isSome = true
        · simp [add1, getLastAdded_nil, hm, hf]
        · by_cases hf3 : (s3.find? fun e => e.metadata.id ==
              (mkNewMetadata c content scope prev 0 clock).id).isSome = true
          · simp [add1, getLastAdded_nil, hm, hf, hf3]
          · simp [add1, getLastAdded_nil, hm, hf, hf3]
  · intro c content scope prev st h
    have hw := add1_null_written c content scope prev st.adding st.clock st.log st.log st.log h
    unfold addStore
    rw [hw]
    exact ⟨by simp, rfl⟩
  · intro c content1 scope1 content2 scope2 clock s2l s3l
    refine ⟨?_, ?_, ?_⟩
    · simp [add1, getLastAdded_nil]
    · simp [add1, getLastAdded_nil]
    · simp [add1, getLastAdded_nil]

/-- The crypto context with a signing function configured: the sign call is
an extra await between the watermark read and the marker check, so the
marker check of one call can be delayed past the completion of the other. -/
def ctxSig : Ctx := { defaultCtx with sign := some fun s => "S:" ++ s }

/-- Claim C8 (counterexample): two adds race on the same localSeq, and both
succeed.  Both getLastAdded reads returned -1 (each read ran before either
write), so both calls target localSeq 0; the second call reaches its marker
check only after the first call completed and cleared its marker (its await
on the asynchronous sign function delayed it), finds no marker and a
different id, and persists a second record with the same localSeq.  This
refutes the claim that exactly one of two racing adds succeeds and the
other returns the already-exists result. -/
theorem c8_counterexample :
    (add1 ctxSig "a" "post" none [] 200 [] [] []).result =
      Except.ok (some (mkNewMetadata ctxSig "a" "post" none 0 200)) ∧
    (add1 ctxSig "b" "post" none [] 201 []
        [{ metadata := mkNewMetadata ctxSig "a" "post" none 0 200, content := "testing" }]
        [{ metadata := mkNewMetadata ctxSig "a" "post" none 0 200, content := "testing" }]).result =
      Except.ok (some (mkNewMetadata ctxSig "b" "post" none 0 201)) ∧
    (mkNewMetadata ctxSig "a" "post" none 0 200).seq.localSeq = 0 ∧
    (mkNewMetadata ctxSig "b" "post" none 0 201).seq.localSeq = 0 ∧
    (mkNewMetadata ctxSig "a" "post" none 0 200).id ≠
      (mkNewMetadata ctxSig "b" "post" none 0 201).id := by
  refine ⟨rfl, by decide, rfl, rfl, by decide⟩

/-- Claim C8 (witness): the amended statement applied at concrete inputs:
a sequential add that returns null (here because a marker for localSeq 0 is
already set) leaves the log and the lastSynced record untouched. -/
theorem c8_witness :
    (addStore defaultCtx "w" "post" none
        { log := [], extra := none, adding := [0], clock := 100 }).2.log = [] ∧
    (addStore defaultCtx "w" "post" none
        { log := [], extra := none, adding := [0], clock := 100 }).2.extra = none :=
  c8_amended.2.1 defaultCtx "w" "post" none
    { log := [], extra := none, adding := [0], clock := 100 } (by decide)

/-- Claim C10: when add returns null at the duplicate-id check (the store
read empty at getLastAdded, so localSeq is 0, no marker was set, and the
computed id was present at the lookup), the marker set just before is never
cleared; consequently every later add call on the same instance that again
computes localSeq 0 returns null at the marker check, writing nothing and
leaving the markers unchanged, even with no other add in flight. -/
theorem c10_leak :
    (∀ c content scope prev adding clock s2 s3,
      0 ∉ adding →
      (s2.find? fun e => e.metadata.id ==
        (mkNewMetadata c content scope prev 0 clock).id).isSome = true →
      (add1 c content scope prev adding clock [] s2 s3).result = Except.ok none ∧
      0 ∈ (add1 c content scope prev adding clock [] s2 s3).adding ∧
      (add1 c content scope prev adding clock [] s2 s3).written = none) ∧
    (∀ c content scope prev adding clock s2 s3,
      0 ∈ adding →
      (add1 c content scope prev adding clock [] s2 s3).result = Except.ok none ∧
      (add1 c content scope prev adding clock [] s2 s3).written = none ∧
      (add1 c content scope prev adding clock [] s2 s3).adding = adding) := by
  constructor
  · intro c content scope prev adding clock s2 s3 hm hf
    simp [add1, getLastAdded_nil, hm, hf]
  · intro c content scope prev adding clock s2 s3 hm
    simp [add1, getLastAdded_nil, hm]

/-- The record whose id collides with the id computed by the concrete failing
add of the C10 witness. -/
def leakedEntry : EncMsg :=
  { metadata := mkNewMetadata defaultCtx "x" "post" none 0 100, content := "testing" }

/-- Claim C10 (witness): the statement applied at concrete inputs: an add
that fails the duplicate-id check leaves its marker set, and a later add
computing the same localSeq returns null without writing. -/
theorem c10_witness :
    ((add1 defaultCtx "x" "post" none [] 100 [] [leakedEntry] []).result = Except.ok none ∧
      0 ∈ (add1 defaultCtx "x" "post" none [] 100 [] [leakedEntry] []).adding ∧
      (add1 defaultCtx "x" "post" none [] 100 [] [leakedEntry] []).written = none) ∧
    ((add1 defaultCtx "y" "post" none [0] 105 [] [] []).result = Except.ok none ∧
      (add1 defaultCtx "y" "post" none [0] 105 [] [] []).written = none ∧
      (add1 defaultCtx "y" "post" none [0] 105 [] [] []).adding = [0]) :=
  ⟨c10_leak.1 defaultCtx "x" "post" none [] 100 [leakedEntry] [] (by decide) (by decide),
   c10_leak.2 defaultCtx "y" "post" none [0] 105 [] [] (by decide)⟩

/-- Ordering of log entries by the localSeq component of their metadata seq,
used by the spec-modelled delta scan. -/
def lsLe (a b : EncMsg) : Prop :=
  a.metadata.seq.localSeq ≤ b.metadata.seq.localSeq

instance : DecidableRel lsLe := fun a b =>
  inferInstanceAs (Decidable (a.metadata.seq.localSeq ≤ b.metadata.seq.localSeq))

instance : IsTotal EncMsg lsLe :=
  ⟨fun a b => Nat.le_total a.metadata.seq.localSeq b.metadata.seq.localSeq⟩

instance : IsTrans EncMsg lsLe :=
  ⟨fun _ _ _ hab hbc => Nat.le_trans hab hbc⟩

/-- Modelled from the spec: getDiff of the Log Store contract (spec section
4.2), which src/ does not implement (the store exposes no delta scan; only
the HelloAction constructor exists in actions.ts): produce, in ascending
localSeq order, all entries strictly newer than the given watermark. -/
def getDiff (log : List EncMsg) (w : Nat) : List EncMsg :=
  List.insertionSort lsLe (log.filter fun e => decide (w < e.metadata.seq.localSeq))

/-- Modelled from the spec: the lastAdded watermark read of sync step 1
(spec section 4.3), which src/ does not implement: the seq of the entry
with the greatest localSeq, or the empty sentinel (none) on an empty log. -/
def lastAddedSpec : List EncMsg → Option Seq
  | [] => none
  | e :: es =>
    match lastAddedSpec es with
    | none => some e.metadata.seq
    | some m => if m.localSeq < e.metadata.seq.localSeq then some e.metadata.seq else some m

/-- The body of a hello protocol message of actions.ts: the latest seq (or
the -1 sentinel, modelled none) and the optional list of new messages. -/
structure HelloBody where
  seq : Option Seq
  messages : Option (List EncMsg)
deriving DecidableEq

/-- HelloAction of actions.ts: the pair of the tag hello and the body
carrying the lastAdded seq and the new messages. -/
def HelloAction (lastAdded : Option Seq) (newMsgs : Option (List EncMsg)) :
    String × HelloBody :=
  ("hello", { seq := lastAdded, messages := newMsgs })

/-- Modelled from the spec: the on-connect sync step, steps 1 to 3 of spec
section 4.3, which src/ does not implement (CrossTabClient installs an
onopen handler that only updates the connection state and never builds a
Hello): read the watermarks, compute the delta of entries strictly newer
than the lastSynced localSeq, and send a Hello carrying the advertised seq
and that delta; the Hello is sent even when the delta is empty. -/
def syncStepOnConnect (log : List EncMsg) (lastSyncedLocalSeq : Nat) : String × HelloBody :=
  HelloAction (lastAddedSpec log) (some (getDiff log lastSyncedLocalSeq))

/-- Claim C3 (spec-modelled): the on-connect sync step always produces a
hello message carrying an entries list; that list holds exactly the store
entries with localSeq strictly greater than the lastSynced watermark, in
ascending localSeq order; and when no entry is newer than the watermark the
hello still carries the (empty) list rather than being skipped. -/
theorem c3_hello_delta (log : List EncMsg) (w : Nat) :
    (syncStepOnConnect log w).1 = "hello" ∧
    ∃ l, (syncStepOnConnect log w).2.messages = some l ∧
      (∀ e, e ∈ l ↔ e ∈ log ∧ w < e.metadata.seq.localSeq) ∧
      l.Pairwise lsLe ∧
      ((∀ e ∈ log, e.metadata.seq.localSeq ≤ w) → l = []) := by
  refine ⟨rfl, getDiff log w, rfl, ?_, ?_, ?_⟩
  · intro e
    have hperm := List.perm_insertionSort lsLe
      (log.filter fun e => decide (w < e.metadata.seq.localSeq))
    rw [getDiff, hperm.mem_iff, List.mem_filter]
    simp
  · exact List.sorted_insertionSort lsLe _
  · intro hall
    have hf : (log.filter fun e => decide (w < e.metadata.seq.localSeq)) = [] := by
      rw [List.filter_eq_nil_iff]
      intro e he
      have := hall e he
      simp
      omega
    rw [getDiff, hf]
    rfl

/-- A concrete log entry with the given localSeq, for the scenario runs. -/
def demoEntry (n : Nat) : EncMsg :=
  { metadata :=
      { id := "id" ++ (natDec n).asString
        timestamp := n
        proof := "p"
        seq := { timestamp := n, localSeq := n, device := "d" }
        prev := none
        username := "u"
        author := "did:key:z1"
        scope := "post"
        signature := none }
    content := "c" }

/-- Claim C3 (witness): scenario B evaluated concretely: with entries at
localSeq 0 through 9 and lastSynced at 7, the hello carries exactly the
entries at localSeq 8 and 9 in that order; and the general statement applied
to that store. -/
theorem c3_witness :
    (syncStepOnConnect (List.map demoEntry [0, 1, 2, 3, 4, 5, 6, 7, 8, 9]) 7).2.messages =
      some [demoEntry 8, demoEntry 9] ∧
    (syncStepOnConnect (List.map demoEntry [0, 1, 2, 3, 4, 5]) 5).2.messages = some [] ∧
    ((syncStepOnConnect (List.map demoEntry [0, 1, 2, 3, 4, 5, 6, 7, 8, 9]) 7).1 = "hello" ∧
      ∃ l, (syncStepOnConnect (List.map demoEntry [0, 1, 2, 3, 4, 5, 6, 7, 8, 9]) 7).2.messages =
          some l ∧
        (∀ e, e ∈ l ↔ e ∈ List.map demoEntry [0, 1, 2, 3, 4, 5, 6, 7, 8, 9] ∧
          7 < e.metadata.seq.localSeq) ∧
        l.Pairwise lsLe ∧
        ((∀ e ∈ List.map demoEntry [0, 1, 2, 3, 4, 5, 6, 7, 8, 9],
          e.metadata.seq.localSeq ≤ 7) → l = [])) :=
  ⟨by decide, by decide, c3_hello_delta (List.map demoEntry [0, 1, 2, 3, 4, 5, 6, 7, 8, 9]) 7⟩

/-- The MetaData record of the store revision that cross-tab-client.ts was
written against (it imports MetaData from the store module, and that export
exists only in this revision): the seq string, the localSeq counter, the
hash of the previous message, the id, the author, the creation time, and the
optional signature. -/
structure Meta2 where
  seq : List Char
  localSeq : Nat
  prev : Option String
  id : String
  author : String
  time : Nat
  signature : Option String
deriving DecidableEq

/-- An Action of actions.ts: a type tag and a data payload, the payload
modelled as its serialized form. -/
structure Action2 where
  type : String
  data : String
deriving DecidableEq

/-- The Entry record persisted by this store revision: top-level copies of
seq, localSeq, id and time beside the action and the metadata (IndexedDB
indexes reach only one level deep, hence the duplication). -/
structure Entry2 where
  seq : List Char
  localSeq : Nat
  action : Action2
  id : String
  meta : Meta2
  time : Nat
deriving DecidableEq

/-- The metadata fields assembled by this add before signature and id. -/
structure PreMeta2 where
  prev : Option String
  seq : List Char
  localSeq : Nat
  time : Nat
  author : String
deriving DecidableEq

/-- External collaborators of the MetaData-based store revision: the id hash
with its encoding, the canonical serializer, the optional signing function,
and the device identity. -/
structure Ctx2 where
  hashId : String → String
  stringifyPre : PreMeta2 → String
  stringifySigned : PreMeta2 → String → String
  sign : Option (String → String)
  deviceName : String
  author : String

/-- The persistent and in-memory state of this store revision: the log
records (keyed by the seq string), the in-memory adding markers, and the
monotonic-timestamp module state. -/
structure Store2 where
  log : List Entry2
  adding : List Nat
  clock : Nat
deriving DecidableEq

/-- openCursor with direction prev on the log keyed by the seq string: the
record with the largest key in the string order. -/
def maxBySeqKey : List Entry2 → Option Entry2
  | [] => none
  | e :: es =>
    match maxBySeqKey es with
    | none => some e
    | some m => if lexLt m.seq e.seq then some e else some m

/-- getLastAdded of this revision: parseInt of the numeric localSeq of the
last record (the identity on a number), or 0 on an empty store. -/
def getLastAdded2 (log : List Entry2) : Nat :=
  match maxBySeqKey log with
  | none => 0
  | some e => e.localSeq

/-- The signed-or-plain metadata assembly of this revision. -/
def mkMeta2 (c : Ctx2) (pre : PreMeta2) : Meta2 :=
  match c.sign with
  | some signFn =>
    let sig := signFn (c.stringifyPre pre)
    { seq := pre.seq, localSeq := pre.localSeq, prev := pre.prev
      id := c.hashId (c.stringifySigned pre sig), author := pre.author
      time := pre.time, signature := some sig }
  | none =>
    { seq := pre.seq, localSeq := pre.localSeq, prev := pre.prev
      id := c.hashId (c.stringifyPre pre), author := pre.author
      time := pre.time, signature := none }

/-- IndexedStore.add of the MetaData-based revision, run sequentially.
Steps, in source order: localSeq is getLastAdded plus one; take the
timestamp; build the seq string; build the metadata, whose prev field reads
the id of the meta property of the supplied prev value; both the Action type
of the declared parameter and the MetaData value that CrossTabClient.add
passes in that position lack a meta property, so a supplied prev makes that
read throw a TypeError on the id access; then the marker check, the
duplicate-id lookup (null with the marker left set), the write (the log is
keyed by the seq string), marker removal and return. -/
def add2 (c : Ctx2) (st : Store2) (action : Action2) (prev : Option Meta2) :
    Except JsErr (Option Meta2) × Store2 :=
  let localSeq := getLastAdded2 st.log + 1
  let time := st.clock
  let seqKey := serializeSeq { timestamp := time, localSeq := localSeq, device := c.deviceName }
  match prev with
  | some _ =>
    (Except.error (JsErr.typeError "cannot read id of undefined"),
      { st with clock := st.clock + 1 })
  | none =>
    let meta := mkMeta2 c
      { prev := none, seq := seqKey, localSeq := localSeq, time := time, author := c.author }
    let entry : Entry2 :=
      { seq := seqKey, localSeq := localSeq, action := action, id := meta.id
        meta := meta, time := time }
    if localSeq ∈ st.adding then
      (Except.ok none, { st with clock := st.clock + 1 })
    else
      if (st.log.find? fun e => e.id == meta.id).isSome then
        (Except.ok none, { st with adding := localSeq :: st.adding, clock := st.clock + 1 })
      else if (st.log.find? fun e => e.seq == seqKey).isSome then
        (Except.error (JsErr.constraintError "key already exists"),
          { st with adding := localSeq :: st.adding, clock := st.clock + 1 })
      else
        (Except.ok (some meta),
          { log := st.log ++ [entry]
            adding := (localSeq :: st.adding).erase localSeq
            clock := st.clock + 1 })

/-- The lastAddedCache of CrossTabClient: initialized as the number 0, and
assigned the seq string when the comparison fires, so a number or a
string. -/
inductive NumOrStr where
  | num (n : Int)
  | str (s : List Char)
deriving DecidableEq

/-- Model of the JavaScript Number coercion of the strings arising here: the
empty string is 0, a pure digit string is its value, anything else
(every seq string, which contains colons) is NaN, modelled none. -/
def jsNumOfChars (cs : List Char) : Option Int :=
  if cs = [] then some 0
  else if cs.all isDigitCh then some (decVal cs)
  else none

/-- The comparison of lastAddedCache with the seq string in
CrossTabClient.add: with a numeric cache JavaScript coerces the string to a
number (NaN makes the comparison false); with a string cache it compares
code units. -/
def jsLtCacheSeq : NumOrStr → List Char → Bool
  | NumOrStr.num n, s =>
    match jsNumOfChars s with
    | some m => decide (n < m)
    | none => false
  | NumOrStr.str a, s => lexLt a s

/-- The connection states of CrossTabClient. -/
inductive NodeState where
  | connected
  | connecting
  | disconnected
  | sending
  | synchronized
deriving DecidableEq

/-- The metadata copy built by sendSync, every key except seq. -/
structure Meta2Sans where
  localSeq : Nat
  prev : Option String
  id : String
  author : String
  time : Nat
  signature : Option String
deriving DecidableEq

def Meta2.sans (m : Meta2) : Meta2Sans :=
  { localSeq := m.localSeq, prev := m.prev, id := m.id, author := m.author
    time := m.time, signature := m.signature }

/-- One sync message handed to the socket: the seq value and the single
action with its seq-stripped metadata. -/
structure SyncMsg where
  seq : List Char
  action : Action2
  meta : Meta2Sans
deriving DecidableEq

/-- The state of one CrossTabClient: its store, the lastAddedCache, the map
of received ids, the in-flight sync counter, the connection state, and the
messages handed to the socket. -/
structure ClientState where
  store : Store2
  lastAddedCache : NumOrStr
  received : List String
  syncing : Nat
  state : NodeState
  outbox : List SyncMsg
deriving DecidableEq

/-- CrossTabClient.setState (the method): assign the state when it
changed. -/
def setStateClient (st : ClientState) (s : NodeState) : ClientState :=
  if st.state = s then st else { st with state := s }

/-- CrossTabClient.send: serialize and hand to the socket when connected,
otherwise return silently. -/
def sendClient (st : ClientState) (m : SyncMsg) : ClientState :=
  if st.state = NodeState.connected then { st with outbox := st.outbox ++ [m] } else st

/-- CrossTabClient.sendSync: raise the in-flight counter, enter sending,
send the sync message with the seq key stripped from the metadata, lower the
counter when positive, and enter synchronized when it reaches zero. -/
def sendSync (st : ClientState) (seqv : List Char) (action : Action2) (meta : Meta2) :
    ClientState :=
  let st1 : ClientState := { st with syncing := st.syncing + 1 }
  let st2 := setStateClient st1 NodeState.sending
  let st3 := sendClient st2 { seq := seqv, action := action, meta := meta.sans }
  let st4 := if st3.syncing > 0 then { st3 with syncing := st3.syncing - 1 } else st3
  if st4.syncing = 0 then setStateClient st4 NodeState.synchronized else st4

/-- CrossTabClient.syncEvent: the metadata carries a defined seq, so it is
used directly. -/
def syncEvent (st : ClientState) (action : Action2) (meta : Meta2) : ClientState :=
  sendSync st meta.seq action meta

/-- CrossTabClient.add of cross-tab-client.ts.  Returned beside the result
and the new state is the list of arguments passed to the store add calls, in
order.  Steps, in source order: call the store add with the action alone;
when it returns null, throw the already-exists Error; raise the
lastAddedCache when the comparison with the seq string fires; when the id is
among the received ids, drop it from that map and return null; otherwise
call the store add a second time with the same action and the returned
metadata in the prev position; propagate its outcome after running
syncEvent on success. -/
def clientAdd (c : Ctx2) (st : ClientState) (action : Action2) :
    Except JsErr (Option Meta2) × ClientState × List (Action2 × Option Meta2) :=
  match (add2 c st.store action none).1 with
  | Except.error e =>
    (Except.error e, { st with store := (add2 c st.store action none).2 },
      [(action, (none : Option Meta2))])
  | Except.ok none =>
    (Except.error (JsErr.jsError "That ID already exists"),
      { st with store := (add2 c st.store action none).2 },
      [(action, (none : Option Meta2))])
  | Except.ok (some meta) =>
    let cache2 :=
      if jsLtCacheSeq st.lastAddedCache meta.seq then NumOrStr.str meta.seq
      else st.lastAddedCache
    let st1 : ClientState :=
      { st with store := (add2 c st.store action none).2, lastAddedCache := cache2 }
    if meta.id ∈ st1.received then
      (Except.ok none, { st1 with received := st1.received.erase meta.id },
        [(action, (none : Option Meta2))])
    else
      match (add2 c st1.store action (some meta)).1 with
      | Except.error e =>
        (Except.error e, { st1 with store := (add2 c st1.store action (some meta)).2 },
          [(action, none), (action, some meta)])
      | Except.ok v =>
        (Except.ok v,
          syncEvent { st1 with store := (add2 c st1.store action (some meta)).2 } action meta,
          [(action, none), (action, some meta)])

theorem add2_null_log (c : Ctx2) (st : Store2) (action : Action2) (prev : Option Meta2)
    (h : (add2 c st action prev).1 = Except.ok none) :
    (add2 c st action prev).2.log = st.log := by
  cases prev with
  | some p => simp [add2] at h
  | none =>
    by_cases hm : getLastAdded2 st.log + 1 ∈ st.adding
    · simp [add2, hm]
    · by_cases hf : (st.log.find? fun e =>
          e.id == (mkMeta2 c
            { prev := none
              seq := serializeSeq
                { timestamp := st.clock, localSeq := getLastAdded2 st.log + 1
                  device := c.deviceName }
              localSeq := getLastAdded2 st.log + 1
              time := st.clock
              author := c.author }).id).isSome = true
      · simp [add2, hm, hf]
      · by_cases hs : (st.log.find? fun e => e.seq == serializeSeq
            { timestamp := st.clock, localSeq := getLastAdded2 st.log + 1
              device := c.deviceName }).isSome = true
        · simp [add2, hm, hf, hs] at h
        · simp [add2, hm, hf, hs] at h

/-- Claim C9 (amended): when the first store write succeeds and the id is
not among the received ids, CrossTabClient.add does invoke the store add a
second time with the same action, passing the returned metadata in the prev
position; but that second invocation throws a TypeError (it reads the id of
the meta property of the passed value, and a MetaData record has no meta
property), so the coordinator-level add rejects with that TypeError and
exactly one entry is persisted, not two; and when the first store add
returns the failure value null, CrossTabClient.add throws the
already-exists Error instead of returning a failure result, with the log
unchanged. -/
theorem c9_amended :
    (∀ c st action meta,
      (add2 c st.store action none).1 = Except.ok (some meta) →
      meta.id ∉ st.received →
      (clientAdd c st action).2.2 = [(action, none), (action, some meta)] ∧
      (clientAdd c st action).1 =
        Except.error (JsErr.typeError "cannot read id of undefined") ∧
      (clientAdd c st action).2.1.store.log = (add2 c st.store action none).2.log) ∧
    (∀ c st action,
      (add2 c st.store action none).1 = Except.ok none →
      (clientAdd c st action).1 = Except.error (JsErr.jsError "That ID already exists") ∧
      (clientAdd c st action).2.1.store.log = st.store.log) := by
  constructor
  · intro c st action meta h hrec
    have hsecond : ∀ st2 : Store2, add2 c st2 action (some meta) =
        (Except.error (JsErr.typeError "cannot read id of undefined"),
          { st2 with clock := st2.clock + 1 }) := by
      intro st2
      rfl
    simp only [clientAdd, h, hsecond]
    simp [hrec]
  · intro c st action h
    simp only [clientAdd, h]
    exact ⟨by trivial, add2_null_log c st.store action none h⟩

/-- A concrete instantiation of the collaborators of the MetaData-based
store revision, for evaluating the client on concrete inputs. -/
def ctx2d : Ctx2 :=
  { hashId := fun s => "H:" ++ s
    stringifyPre := fun p =>
      (p.prev.getD "null") ++ "|" ++ String.mk p.seq ++ "|" ++ (natDec p.localSeq).asString ++
        "|" ++ (natDec p.time).asString ++ "|" ++ p.author
    stringifySigned := fun p s =>
      (p.prev.getD "null") ++ "|" ++ String.mk p.seq ++ "|" ++ (natDec p.localSeq).asString ++
        "|" ++ (natDec p.time).asString ++ "|" ++ p.author ++ "|" ++ s
    sign := none
    deviceName := "dev"
    author := "did:key:z1" }

/-- A fresh connected client over an empty store. -/
def client0 : ClientState :=
  { store := { log := [], adding := [], clock := 50 }
    lastAddedCache := NumOrStr.num 0
    received := []
    syncing := 0
    state := NodeState.connected
    outbox := [] }

/-- Claim C9 (counterexample): on a fresh client, one coordinator-level add
does not persist two entries and return their metadata: the first store add
succeeds (one entry lands in the log), the second store add is invoked but
throws a TypeError reading the id of the undefined meta property of the
metadata it was handed, and CrossTabClient.add rejects with that TypeError,
leaving exactly one persisted entry. -/
theorem c9_counterexample :
    (clientAdd ctx2d client0 { type := "inc", data := "" }).1 =
      Except.error (JsErr.typeError "cannot read id of undefined") ∧
    (clientAdd ctx2d client0 { type := "inc", data := "" }).2.1.store.log.length = 1 ∧
    (clientAdd ctx2d client0 { type := "inc", data := "" }).2.2.length = 2 := by
  refine ⟨rfl, rfl, rfl⟩

/-- The metadata returned by the first store add of the concrete C9 run. -/
def m9 : Meta2 :=
  mkMeta2 ctx2d
    { prev := none
      seq := serializeSeq { timestamp := 50, localSeq := 1, device := "dev" }
      localSeq := 1
      time := 50
      author := "did:key:z1" }

/-- A client whose store already carries an in-flight marker for the
localSeq the next add will compute, so the first store add returns null. -/
def client1 : ClientState :=
  { client0 with store := { log := [], adding := [1], clock := 60 } }

/-- Claim C9 (witness): the amended statement applied at concrete clients:
the fresh run makes exactly the two store add calls and rejects with the
TypeError, and the marker-blocked run rejects with the already-exists
Error. -/
theorem c9_witness :
    ((clientAdd ctx2d client0 { type := "inc", data := "" }).2.2 =
      [({ type := "inc", data := "" }, none), ({ type := "inc", data := "" }, some m9)] ∧
      (clientAdd ctx2d client0 { type := "inc", data := "" }).1 =
        Except.error (JsErr.typeError "cannot read id of undefined") ∧
      (clientAdd ctx2d client0 { type := "inc", data := "" }).2.1.store.log =
        (add2 ctx2d client0.store { type := "inc", data := "" } none).2.log) ∧
    ((clientAdd ctx2d client1 { type := "inc", data := "" }).1 =
        Except.error (JsErr.jsError "That ID already exists") ∧
      (clientAdd ctx2d client1 { type := "inc", data := "" }).2.1.store.log =
        client1.store.log) :=
  ⟨c9_amended.1 ctx2d client0 { type := "inc", data := "" } m9 (by decide) (by decide),
   c9_amended.2 ctx2d client1 { type := "inc", data := "" } (by decide)⟩

end Partylog
